import Mathlib

/-!
Verification of `albumentations/pytorch/augmentations/image_only/functional.py`.

Shallow embedding conventions:
* An image buffer is a total function `channel → y → x → K` over an ordered
  field `K` (`ℚ` for exact-arithmetic claims; `ℝ` where the source involves π).
* Tensor storage kinds (`torch.uint8`, `torch.float32`, ...) are the inductive
  `DType`; casting to an integer kind truncates toward zero, as `Tensor.to`
  does for in-range values.
* Fallible functions (a Python `raise`) return `Except String _`.
* Vectorized masked updates in the source are modelled elementwise: a mask
  assignment `t[cond] = a; t[~cond] = b` is the pointwise
  `if cond then a else b`.
-/

namespace Albu

/-- Tensor storage kinds. `uint8`, `float32`, `float64` are the kinds in the
module's registry; `int16`/`int64` stand for the unregistered kinds a caller
could pass. -/
inductive DType where
  | uint8
  | float32
  | float64
  | int16
  | int64
  deriving DecidableEq, Repr

/-- `MAX_VALUES_BY_DTYPE = {torch.uint8: 255, torch.float32: 1.0, torch.float64: 1.0}`;
`none` models a key absent from the dict. -/
def MAX_VALUES_BY_DTYPE : DType → Option ℚ
  | .uint8 => some 255
  | .float32 => some 1
  | .float64 => some 1
  | .int16 => none
  | .int64 => none

/-- An image buffer: axes (channel, height, width), elementwise values in `K`. -/
def Img (K : Type) : Type := ℕ → ℕ → ℕ → K

variable {K : Type} [LinearOrderedField K] [FloorRing K]

/-- Truncation toward zero, the conversion `Tensor.to(torch.int32)` performs. -/
def truncK (x : K) : ℤ :=
  if 0 ≤ x then ⌊x⌋ else ⌈x⌉

/-- `Tensor.type(dtype)` / `Tensor.to(dtype)` on an element: truncates toward
zero for integer kinds (all uses in the module are on in-range values, so
wraparound never occurs), keeps the value for float kinds. -/
def castTrunc (dtype : DType) (x : K) : K :=
  match dtype with
  | .uint8 | .int16 | .int64 => ((truncK x : ℤ) : K)
  | .float32 | .float64 => x

/-- `round_opencv(img)` elementwise, straight from the source:
`int_part = img.to(torch.int32).float()`, `fract_part = img - int_part`,
`cond = (fract_part != 0.5) & (fract_part != -0.5); cond |= (int_part % 2) != 0`;
on `cond` the result is `x + (0.5 if x >= 0 else -0.5)`, otherwise `int_part`;
the final `.to(torch.int32)` truncates toward zero. -/
def round_opencv (x : K) : ℤ :=
  if (x - ((truncK x : ℤ) : K) ≠ 1/2 ∧ x - ((truncK x : ℤ) : K) ≠ -(1/2))
      ∨ truncK x % 2 ≠ 0 then
    truncK (x + (if 0 ≤ x then (1 : K)/2 else -(1/2)))
  else
    truncK x

/-- The rounding rule exactly as the spec words it (refinement reference for
C1): at an exact `±0.5` tie with even truncated part, round to the truncated
part; otherwise add `±0.5` toward the sign of `x` and truncate toward zero. -/
def round_spec (x : K) : ℤ :=
  if (x - ((truncK x : ℤ) : K) = 1/2 ∨ x - ((truncK x : ℤ) : K) = -(1/2))
      ∧ truncK x % 2 = 0 then
    truncK x
  else if 0 ≤ x then
    truncK (x + 1/2)
  else
    truncK (x - 1/2)

theorem floor_half_eq_zero : ⌊(1 : K)/2⌋ = 0 := by
  rw [Int.floor_eq_zero_iff, Set.mem_Ico]
  constructor <;> norm_num

theorem ceil_neg_half_eq_zero : ⌈-((1 : K)/2)⌉ = 0 := by
  rw [Int.ceil_eq_zero_iff, Set.mem_Ioc]
  constructor <;> norm_num

theorem truncK_intCast (n : ℤ) : truncK ((n : K)) = n := by
  unfold truncK
  split <;> simp

theorem truncK_intCast_add_half (n : ℤ) (hn : 0 ≤ n) :
    truncK ((n : K) + 1/2) = n := by
  have h0 : (0 : K) ≤ (n : K) + 1/2 := by positivity
  rw [truncK, if_pos h0, add_comm, Int.floor_add_int, floor_half_eq_zero, zero_add]

theorem truncK_intCast_sub_half (n : ℤ) (hn : n < 0) :
    truncK ((n : K) - 1/2) = n := by
  have hnK : (n : K) ≤ 0 := by exact_mod_cast hn.le
  have h0 : ¬ (0 : K) ≤ (n : K) - 1/2 := by
    push_neg
    linarith
  rw [truncK, if_neg h0, sub_eq_add_neg, add_comm, Int.ceil_add_int,
    ceil_neg_half_eq_zero, zero_add]

/-- C1: elementwise, `round_opencv` returns the truncated part exactly at a
`±0.5` tie with even truncated part, and otherwise truncates `x + 0.5`
(for `x ≥ 0`) or `x - 0.5` (for `x < 0`) toward zero. -/
theorem truncK_shift_cases (v : K) :
    truncK (v + (if 0 ≤ v then (1 : K)/2 else -(1/2))) =
      if 0 ≤ v then truncK (v + 1/2) else truncK (v - 1/2) := by
  by_cases hx : 0 ≤ v
  · rw [if_pos hx, if_pos hx]
  · rw [if_neg hx, if_neg hx, sub_eq_add_neg]

theorem round_opencv_matches_spec (img : Img K) (c y x : ℕ) :
    round_opencv (img c y x) = round_spec (img c y x) := by
  set v : K := img c y x with hv
  unfold round_opencv round_spec
  by_cases htie : (v - ((truncK v : ℤ) : K) = 1/2 ∨ v - ((truncK v : ℤ) : K) = -(1/2)) ∧ truncK v % 2 = 0
  · have hcond : ¬ ((v - ((truncK v : ℤ) : K) ≠ 1/2 ∧ v - ((truncK v : ℤ) : K) ≠ -(1/2)) ∨ truncK v % 2 ≠ 0) := by
      intro hc
      rcases hc with hand | hodd
      · rcases htie.1 with h | h
        · exact hand.1 h
        · exact hand.2 h
      · exact hodd htie.2
    rw [if_neg hcond, if_pos htie]
  · have hcond : (v - ((truncK v : ℤ) : K) ≠ 1/2 ∧ v - ((truncK v : ℤ) : K) ≠ -(1/2)) ∨ truncK v % 2 ≠ 0 := by
      by_contra hc
      push_neg at hc
      rcases hc with ⟨h1, h2⟩
      apply htie
      refine ⟨?_, h2⟩
      by_cases he : v - ((truncK v : ℤ) : K) = 1/2
      · exact Or.inl he
      · exact Or.inr (h1 he)
    rw [if_pos hcond, if_neg htie, truncK_shift_cases]

/-- C10: on a buffer whose elements are all integer-valued, `round_opencv`
returns exactly those values: it is the identity on integral inputs. -/
theorem round_opencv_integral_identity (img : Img K)
    (h : ∀ c y x, ∃ n : ℤ, img c y x = (n : K)) (c y x : ℕ) :
    ((round_opencv (img c y x) : ℤ) : K) = img c y x := by
  obtain ⟨n, hn⟩ := h c y x
  rw [hn]
  unfold round_opencv
  have ht : truncK ((n : K)) = n := truncK_intCast n
  have hfr : (n : K) - ((truncK ((n : K)) : ℤ) : K) = 0 := by
    rw [ht]; ring
  have hcond : ((n : K) - ((truncK ((n : K)) : ℤ) : K) ≠ 1/2 ∧
      (n : K) - ((truncK ((n : K)) : ℤ) : K) ≠ -(1/2)) ∨ truncK ((n : K)) % 2 ≠ 0 := by
    left
    rw [hfr]
    norm_num
  rw [if_pos hcond]
  by_cases hn0 : 0 ≤ n
  · have hx : (0 : K) ≤ (n : K) := by exact_mod_cast hn0
    rw [if_pos hx, truncK_intCast_add_half n hn0]
  · push_neg at hn0
    have hx : ¬ (0 : K) ≤ (n : K) := by
      push_neg
      exact_mod_cast hn0
    rw [if_neg hx]
    have : (n : K) + -(1/2) = (n : K) - 1/2 := by ring
    rw [this, truncK_intCast_sub_half n hn0]

/-- Witness for C10 at the concrete buffer `(c,y,x) ↦ if c = 0 then -3 else 7`
over `ℚ`, evaluated at pixel `(0,0,0)`. -/
theorem round_opencv_integral_identity_witness :
    ((round_opencv ((fun c _ _ => if c = 0 then (-3 : ℚ) else 7) 0 0 0) : ℤ) : ℚ) =
      (fun c _ _ => if c = 0 then (-3 : ℚ) else 7) 0 0 0 :=
  round_opencv_integral_identity (K := ℚ)
    (fun c _ _ => if c = 0 then (-3 : ℚ) else 7)
    (fun c _ _ => by
      by_cases hc : c = 0
      · exact ⟨-3, by simp [hc]⟩
      · exact ⟨7, by simp [hc]⟩)
    0 0 0

/-- `clip(img, dtype, maxval) = torch.clamp(img, 0, maxval).type(dtype)`,
elementwise: clamp to `[0, maxval]`, then cast to the storage kind. -/
def clip (img : Img K) (dtype : DType) (maxval : K) : Img K :=
  fun c y x => castTrunc dtype (min maxval (max 0 (img c y x)))

/-- The `clipped` decorator: captures the input buffer's kind, looks up its
max value (`MAX_VALUES_BY_DTYPE.get(dtype, 1.0)`, defaulting to 1.0 for an
unknown kind), applies the wrapped transform, and clips the result back to
`(dtype, maxval)`. -/
def clipped (func : Img K → Img K) (img : Img K) (dtype : DType) : Img K :=
  clip (func img) dtype (((MAX_VALUES_BY_DTYPE dtype).getD 1 : ℚ) : K)

/-- Whether an `Except` result is the error case (a Python `raise`). -/
def isErr {ε α : Type} : Except ε α → Bool
  | .error _ => true
  | .ok _ => false

/-- `from_float(img, dtype, max_value=None)`: multiplies by `max_value`
(looked up from the target `dtype` when omitted, raising `RuntimeError` when
that kind is not in the registry) and casts to `dtype`. -/
def from_float (img : Img K) (dtype : DType) (max_value : Option K) :
    Except String (Img K) :=
  match max_value with
  | some m => .ok (fun c y x => castTrunc dtype (img c y x * m))
  | none =>
    match MAX_VALUES_BY_DTYPE dtype with
    | some m => .ok (fun c y x => castTrunc dtype (img c y x * ((m : ℚ) : K)))
    | none => .error "RuntimeError: cannot infer the maximum value for dtype"

/-- `to_float(img, dtype, max_value=None)`: casts to `dtype` and divides by
`max_value` (looked up from the source buffer's kind `img.dtype`, passed here
explicitly as `src_dtype`, when omitted). -/
def to_float (img : Img K) (src_dtype dtype : DType) (max_value : Option K) :
    Except String (Img K) :=
  match max_value with
  | some m => .ok (fun c y x => castTrunc dtype (img c y x) / m)
  | none =>
    match MAX_VALUES_BY_DTYPE src_dtype with
    | some m => .ok (fun c y x => castTrunc dtype (img c y x) / ((m : ℚ) : K))
    | none => .error "RuntimeError: cannot infer the maximum value for dtype"

/-- C4: `to_float` and `from_float` fail exactly when `max_value` is omitted
and the relevant kind (the source buffer's kind for `to_float`, the target
kind for `from_float`) is not in the registry, whose registered kinds are
exactly uint8, float32 and float64; with an explicit `max_value` neither ever
fails. -/
theorem range_converters_fail_iff (img : Img K) (src_dtype dtype : DType)
    (max_value : Option K) :
    (isErr (to_float img src_dtype dtype max_value) = true ↔
      max_value = none ∧ MAX_VALUES_BY_DTYPE src_dtype = none) ∧
    (isErr (from_float img dtype max_value) = true ↔
      max_value = none ∧ MAX_VALUES_BY_DTYPE dtype = none) ∧
    (MAX_VALUES_BY_DTYPE dtype ≠ none ↔
      dtype = .uint8 ∨ dtype = .float32 ∨ dtype = .float64) := by
  refine ⟨?_, ?_, ?_⟩
  · cases max_value <;> cases h : MAX_VALUES_BY_DTYPE src_dtype <;>
      simp [to_float, isErr, h]
  · cases max_value <;> cases h : MAX_VALUES_BY_DTYPE dtype <;>
      simp [from_float, isErr, h]
  · cases dtype <;> simp [MAX_VALUES_BY_DTYPE]

/-- C3: for a uint8 image (integer values in `[0,255]`), the float32 round
trip `from_float(to_float(img, float32), uint8)` reproduces the image exactly,
element for element. -/
theorem uint8_float_round_trip (img : Img K)
    (h : ∀ c y x, ∃ n : ℕ, n ≤ 255 ∧ img c y x = (n : K)) (c y x : ℕ) :
    ∃ t r, to_float img .uint8 .float32 none = .ok t ∧
      from_float t .uint8 none = .ok r ∧ r c y x = img c y x := by
  refine ⟨_, _, rfl, rfl, ?_⟩
  obtain ⟨n, hn, hv⟩ := h c y x
  simp only [castTrunc]
  have h255 : (((255 : ℚ) : K)) ≠ 0 := by
    rw [show (((255 : ℚ) : K)) = (255 : K) by norm_cast]
    norm_num
  rw [div_mul_cancel₀ _ h255, hv]
  have ht : truncK ((n : K)) = (n : ℤ) := by
    have := truncK_intCast (K := K) (n : ℤ)
    simpa using this
  rw [ht]
  simp

/-- Witness for C3 at the constant-37 uint8 buffer over `ℚ`, pixel (0,0,0). -/
theorem uint8_float_round_trip_witness :
    ∃ t r, to_float (K := ℚ) (fun _ _ _ => 37) .uint8 .float32 none = .ok t ∧
      from_float t .uint8 none = .ok r ∧ r 0 0 0 = (fun _ _ _ => (37 : ℚ)) 0 0 0 :=
  uint8_float_round_trip (fun _ _ _ => (37 : ℚ))
    (fun _ _ _ => ⟨37, by norm_num, by norm_num⟩) 0 0 0

/-- A cutout hole `(x1, y1, x2, y2)`, half-open in both axes. -/
structure Hole where
  x1 : ℕ
  y1 : ℕ
  x2 : ℕ
  y2 : ℕ
  deriving DecidableEq, Repr

/-- One loop iteration of `cutout`: `img[:, y1:y2, x1:x2] = fill_value` — all
channels, rows in `[y1,y2)`, columns in `[x1,x2)`. -/
def assignHole {α : Type} (img : Img α) (h : Hole) (fill_value : α) : Img α :=
  fun c yc xc =>
    if h.y1 ≤ yc ∧ yc < h.y2 ∧ h.x1 ≤ xc ∧ xc < h.x2 then fill_value
    else img c yc xc

/-- `cutout(img, holes, fill_value=0)`: `img.clone()` allocates a fresh
buffer, so the loop's slice assignments never touch the caller's tensor; the
call is modelled as returning (result, caller's buffer after the call). -/
def cutout {α : Type} (img : Img α) (holes : List Hole) (fill_value : α) :
    Img α × Img α :=
  (holes.foldl (fun acc h => assignHole acc h fill_value) img, img)

theorem foldl_assignHole_eq {α : Type} (holes : List Hole) (img : Img α)
    (fill_value : α) (c yc xc : ℕ) :
    (holes.foldl (fun acc h => assignHole acc h fill_value) img) c yc xc =
      if ∃ h ∈ holes, h.y1 ≤ yc ∧ yc < h.y2 ∧ h.x1 ≤ xc ∧ xc < h.x2 then
        fill_value
      else img c yc xc := by
  induction holes generalizing img with
  | nil => simp
  | cons hd tl ih =>
    rw [List.foldl_cons, ih]
    by_cases htl : ∃ h ∈ tl, h.y1 ≤ yc ∧ yc < h.y2 ∧ h.x1 ≤ xc ∧ xc < h.x2
    · obtain ⟨h, hmem, hp⟩ := htl
      rw [if_pos ⟨h, hmem, hp⟩, if_pos ⟨h, List.mem_cons_of_mem hd hmem, hp⟩]
    · rw [if_neg htl]
      unfold assignHole
      by_cases hin : hd.y1 ≤ yc ∧ yc < hd.y2 ∧ hd.x1 ≤ xc ∧ xc < hd.x2
      · rw [if_pos hin, if_pos ⟨hd, List.mem_cons_self hd tl, hin⟩]
      · have hno : ¬ ∃ h ∈ hd :: tl,
            h.y1 ≤ yc ∧ yc < h.y2 ∧ h.x1 ≤ xc ∧ xc < h.x2 := by
          intro hc
          obtain ⟨h, hmem, hp⟩ := hc
          rcases List.mem_cons.mp hmem with hh | hmem'
          · exact hin (hh ▸ hp)
          · exact htl ⟨h, hmem', hp⟩
        rw [if_neg hin, if_neg hno]

/-- C5: every pixel of the `cutout` result inside some hole (all channels,
half-open ranges) holds `fill_value`, every pixel outside all holes holds the
input value, and the caller's buffer is unchanged after the call. -/
theorem cutout_spec {α : Type} (img : Img α) (holes : List Hole)
    (fill_value : α) (c yc xc : ℕ) :
    ((cutout img holes fill_value).1 c yc xc =
      if ∃ h ∈ holes, h.y1 ≤ yc ∧ yc < h.y2 ∧ h.x1 ≤ xc ∧ xc < h.x2 then
        fill_value
      else img c yc xc) ∧
    (cutout img holes fill_value).2 c yc xc = img c yc xc :=
  ⟨foldl_assignHole_eq holes img fill_value c yc xc, rfl⟩

/-- `normalize(img, mean, std)` in the scalar mean/std case (a 0-d tensor has
empty shape, so neither reshape branch runs). `img = img.float()` returns the
caller's tensor itself when it is already float32 (`Tensor.to` returns `self`
when no conversion is needed) and a fresh buffer otherwise; the subsequent
`img -= mean; img *= torch.reciprocal(std)` are in-place. Modelled as
(returned tensor, caller's buffer after the call). -/
def normalize (img : Img K) (input_dtype : DType) (mean std : K) :
    Img K × Img K :=
  let result : Img K :=
    fun c y x => (castTrunc .float32 (img c y x) - mean) * std⁻¹
  (result, if input_dtype = .float32 then result else img)

/-- C8: with mean 0 and std 1, `normalize` returns the input values cast to
float, elementwise identical to the input. -/
theorem normalize_zero_one_identity (img : Img K) (input_dtype : DType)
    (c y x : ℕ) :
    (normalize img input_dtype 0 1).1 c y x = img c y x := by
  simp [normalize, castTrunc]

/-- C7 fails on the code: for a float32 input, `img.float()` aliases the
caller's tensor, so the in-place subtract/multiply overwrite it. On the
constant-2 float32 buffer with mean 1, std 1, the caller's buffer holds 1,
not 2, after the call. -/
theorem normalize_mutates_float32_input :
    (normalize (K := ℚ) (fun _ _ _ => 2) .float32 1 1).2 0 0 0 ≠
      (fun _ _ _ => (2 : ℚ)) 0 0 0 := by
  simp only [normalize, castTrunc, if_pos rfl]
  norm_num

/-- C7 amended: for every input kind other than float32, `img.float()`
allocates a fresh buffer, so `normalize` leaves the caller's buffer
unchanged. -/
theorem normalize_preserves_non_float32_input (img : Img K)
    (input_dtype : DType) (mean std : K) (h : input_dtype ≠ .float32)
    (c y x : ℕ) :
    (normalize img input_dtype mean std).2 c y x = img c y x := by
  simp [normalize, h]

/-- Witness for the amended C7 at a concrete uint8 buffer. -/
theorem normalize_preserves_non_float32_input_witness :
    (normalize (K := ℚ) (fun _ _ _ => 2) .uint8 1 1).2 0 0 0 =
      (fun _ _ _ => (2 : ℚ)) 0 0 0 :=
  normalize_preserves_non_float32_input (fun _ _ _ => 2) .uint8 1 1
    (by decide) 0 0 0

/-!
Colorspace conversions. The RGB↔HLS math kernels (`K.rgb_to_hls`,
`K.hls_to_rgb`) are external trusted primitives operating on float buffers —
out of scope per the design — so the converters are parameterized by them.
-/

/-- `_rbg_to_hls_float`: kernel call, then `img[0] *= 360.0 / (2.0 * np.pi)`
(the in-place hue scale touches only the kernel's fresh output buffer). -/
noncomputable def _rbg_to_hls_float (kern : Img ℝ → Img ℝ) (img : Img ℝ) :
    Img ℝ :=
  fun c y x =>
    if c = 0 then kern img c y x * (360 / (2 * Real.pi)) else kern img c y x

/-- Body of `_rbg_to_hls_uint8` before its `@clipped` decorator:
`K.rgb_to_hls(img.float() * (1.0/255.0))`, then `img[0] *= 180.0/(2.0*np.pi)`,
`img[1:] *= 255.0`, then `round_opencv`. -/
noncomputable def _rbg_to_hls_uint8_core (kern : Img ℝ → Img ℝ) (img : Img ℝ) :
    Img ℝ :=
  let hls := kern (fun c y x => castTrunc .float32 (img c y x) * (1 / 255))
  fun c y x =>
    ((round_opencv (if c = 0 then hls c y x * (180 / (2 * Real.pi))
      else hls c y x * 255) : ℤ) : ℝ)

/-- `_rbg_to_hls_uint8`, with its `@clipped` decorator capturing the uint8
input kind. -/
noncomputable def _rbg_to_hls_uint8 (kern : Img ℝ → Img ℝ) (img : Img ℝ) :
    Img ℝ :=
  clipped (_rbg_to_hls_uint8_core kern) img .uint8

/-- `rgb_to_hls(img)`: dtype dispatch, `ValueError` outside
{uint8, float32, float64}. -/
noncomputable def rgb_to_hls (kern : Img ℝ → Img ℝ) (img : Img ℝ)
    (dtype : DType) : Except String (Img ℝ) :=
  if dtype = .float32 ∨ dtype = .float64 then
    .ok (_rbg_to_hls_float kern img)
  else if dtype = .uint8 then
    .ok (_rbg_to_hls_uint8 kern img)
  else
    .error "ValueError: rbg_to_hls supports only uint8, float32 and float64 dtypes"

/-- Body of `_hls_to_rgb_uint8` before its `@clipped` decorator:
`img.float()`, `img[0] *= 2.0*np.pi/180.0`, `img[1:] /= 255.0`, kernel call,
`img *= 255.0`, `round_opencv`. -/
noncomputable def _hls_to_rgb_uint8_core (kern : Img ℝ → Img ℝ) (img : Img ℝ) :
    Img ℝ :=
  let rgb := kern (fun c y x =>
    if c = 0 then castTrunc .float32 (img c y x) * (2 * Real.pi / 180)
    else castTrunc .float32 (img c y x) / 255)
  fun c y x => ((round_opencv (rgb c y x * 255) : ℤ) : ℝ)

/-- `_hls_to_rgb_uint8`, with its `@clipped` decorator capturing the uint8
input kind. -/
noncomputable def _hls_to_rgb_uint8 (kern : Img ℝ → Img ℝ) (img : Img ℝ) :
    Img ℝ :=
  clipped (_hls_to_rgb_uint8_core kern) img .uint8

/-- `_hls_to_rgb_float`: `img.clone()`, `img[0] *= 2.0 * np.pi / 360.0`,
kernel call. -/
noncomputable def _hls_to_rgb_float (kern : Img ℝ → Img ℝ) (img : Img ℝ) :
    Img ℝ :=
  kern (fun c y x =>
    if c = 0 then img c y x * (2 * Real.pi / 360) else img c y x)

/-- `hls_to_rgb(img)`: dtype dispatch, `ValueError` outside
{uint8, float32, float64}. -/
noncomputable def hls_to_rgb (kern : Img ℝ → Img ℝ) (img : Img ℝ)
    (dtype : DType) : Except String (Img ℝ) :=
  if dtype = .float32 ∨ dtype = .float64 then
    .ok (_hls_to_rgb_float kern img)
  else if dtype = .uint8 then
    .ok (_hls_to_rgb_uint8 kern img)
  else
    .error "ValueError: hls_to_rgb supports only uint8, float32 and float64 dtypes"

/-- Every element a `clipped`-wrapped transform returns on a uint8 input is
an integer value in `[0, 255]`. -/
theorem clipped_uint8_elem (f : Img K → Img K) (img : Img K) (c y x : ℕ) :
    0 ≤ clipped f img .uint8 c y x ∧ clipped f img .uint8 c y x ≤ 255 ∧
      ∃ n : ℤ, clipped f img .uint8 c y x = (n : K) := by
  have h255 : (((255 : ℚ) : K)) = (255 : K) := by norm_cast
  simp only [clipped, clip, castTrunc, MAX_VALUES_BY_DTYPE, Option.getD, h255]
  set w : K := min (255 : K) (max 0 (f img c y x)) with hw
  have hw0 : (0 : K) ≤ w := le_min (by norm_num) (le_max_left 0 _)
  have hw255 : w ≤ 255 := min_le_left _ _
  have htr : truncK w = ⌊w⌋ := by rw [truncK, if_pos hw0]
  rw [htr]
  refine ⟨?_, ?_, ⟨⌊w⌋, rfl⟩⟩
  · exact_mod_cast Int.floor_nonneg.mpr hw0
  · exact le_trans (Int.floor_le w) hw255

/-- C2: on a uint8 input, `rgb_to_hls` and `hls_to_rgb` succeed and return a
buffer every element of which is an integer value in the legal range
`[0, 255]`, whatever the trusted kernel produced. -/
theorem colorspace_uint8_in_range (kern : Img ℝ → Img ℝ) (img : Img ℝ)
    (c y x : ℕ) :
    (∃ r, rgb_to_hls kern img .uint8 = .ok r ∧
      0 ≤ r c y x ∧ r c y x ≤ 255 ∧ ∃ n : ℤ, r c y x = (n : ℝ)) ∧
    (∃ r, hls_to_rgb kern img .uint8 = .ok r ∧
      0 ≤ r c y x ∧ r c y x ≤ 255 ∧ ∃ n : ℤ, r c y x = (n : ℝ)) := by
  have h1 : rgb_to_hls kern img .uint8 = .ok (_rbg_to_hls_uint8 kern img) := by
    simp [rgb_to_hls]
  have h2 : hls_to_rgb kern img .uint8 = .ok (_hls_to_rgb_uint8 kern img) := by
    simp [hls_to_rgb]
  exact ⟨⟨_, h1, clipped_uint8_elem (_rbg_to_hls_uint8_core kern) img c y x⟩,
    ⟨_, h2, clipped_uint8_elem (_hls_to_rgb_uint8_core kern) img c y x⟩⟩

/-- `add_snow(img, snow_point, brightness_coeff)`: rescales `snow_point`,
converts a float32 input to uint8, converts to HLS, bleaches the Lightness
channel below `snow_point` by `brightness_coeff` and clips it, converts back
to RGB, and restores float32 when needed. Unsupported input kinds raise
before any image computation. The `tofile` debug dumps in the source perform
I/O only and do not affect the returned buffer. -/
noncomputable def add_snow (kernRgbToHls kernHlsToRgb : Img ℝ → Img ℝ)
    (img : Img ℝ) (input_dtype : DType) (snow_point brightness_coeff : ℝ) :
    Except String (Img ℝ) := do
  let sp : ℝ := snow_point * 127.5 + 85
  let (img, needs_float) ←
    if input_dtype = .float32 then
      Except.map (fun i => (i, true)) (from_float img .uint8 none)
    else if input_dtype = .uint8 then
      Except.ok (img, false)
    else
      Except.error "ValueError: unexpected dtype for RandomSnow augmentation"
  let imageHLS ← rgb_to_hls kernRgbToHls img .uint8
  let imageHLS : Img ℝ := fun c y x => castTrunc .float32 (imageHLS c y x)
  let bleached : Img ℝ := fun c y x =>
    if c = 1 then
      if imageHLS 1 y x < sp then imageHLS 1 y x * brightness_coeff
      else imageHLS 1 y x
    else imageHLS c y x
  let withClip : Img ℝ := fun c y x =>
    if c = 1 then clip bleached .uint8 255 1 y x else bleached c y x
  let imageHLS8 : Img ℝ := fun c y x => castTrunc .uint8 (withClip c y x)
  let imageRGB ← hls_to_rgb kernHlsToRgb imageHLS8 .uint8
  if needs_float then to_float imageRGB .uint8 .float32 none
  else Except.ok imageRGB

/-- C6: `add_snow` raises exactly on input kinds outside {uint8, float32},
for every image and parameter value — in particular on float64, which both
colorspace converters accept. -/
theorem add_snow_dtype_dispatch (k1 k2 : Img ℝ → Img ℝ) (img : Img ℝ)
    (dtype : DType) (sp bc : ℝ) :
    (isErr (add_snow k1 k2 img dtype sp bc) = true ↔
      dtype ≠ .uint8 ∧ dtype ≠ .float32) ∧
    (∃ r, rgb_to_hls k1 img .float64 = .ok r) ∧
    (∃ r, hls_to_rgb k1 img .float64 = .ok r) := by
  refine ⟨?_, ⟨_rbg_to_hls_float k1 img, by simp [rgb_to_hls]⟩,
    ⟨_hls_to_rgb_float k1 img, by simp [hls_to_rgb]⟩⟩
  cases dtype <;>
    simp [add_snow, isErr, rgb_to_hls, hls_to_rgb, from_float, to_float,
      MAX_VALUES_BY_DTYPE, Except.map, Except.bind, bind]

theorem round_opencv_zero : round_opencv (0 : K) = 0 := by
  have ht : truncK (0 : K) = 0 := by simpa using truncK_intCast (K := K) 0
  have hadd : truncK ((0 : K) + 1/2) = 0 := by
    simpa using truncK_intCast_add_half (K := K) 0 le_rfl
  unfold round_opencv
  rw [ht]
  rw [if_pos]
  · rw [if_pos (le_refl (0 : K)), hadd]
  · left
    constructor <;> norm_num

theorem truncK_zero : truncK (0 : K) = 0 := by
  simpa using truncK_intCast (K := K) 0

omit [FloorRing K] in
theorem clamp255_zero : min (((255 : ℚ) : K)) (max 0 (0 : K)) = 0 := by
  rw [max_self]
  exact min_eq_right (by norm_num)

/-- The uint8 RGB→HLS path sends a pointwise-zero image to a pointwise-zero
image whenever the trusted kernel fixes black. -/
theorem rbg_to_hls_uint8_black (kern : Img ℝ → Img ℝ)
    (hk : ∀ im : Img ℝ, (∀ c y x, im c y x = 0) → ∀ c y x, kern im c y x = 0)
    (img : Img ℝ) (himg : ∀ c y x, img c y x = 0) (c y x : ℕ) :
    _rbg_to_hls_uint8 kern img c y x = 0 := by
  have hkz : ∀ c y x,
      kern (fun c y x => castTrunc .float32 (img c y x) * (1 / 255)) c y x = 0 :=
    hk _ (fun c y x => by simp [castTrunc, himg c y x])
  have hcore : ∀ c y x, _rbg_to_hls_uint8_core kern img c y x = 0 := by
    intro c y x
    simp only [_rbg_to_hls_uint8_core]
    rw [hkz c y x]
    have hz : (if c = 0 then (0 : ℝ) * (180 / (2 * Real.pi)) else 0 * 255) = 0 := by
      split <;> ring
    rw [hz, round_opencv_zero]
    norm_num
  simp only [_rbg_to_hls_uint8, clipped, clip, castTrunc, MAX_VALUES_BY_DTYPE,
    Option.getD]
  rw [hcore c y x, clamp255_zero, truncK_zero]
  norm_num

/-- The uint8 HLS→RGB path sends a pointwise-zero image to a pointwise-zero
image whenever the trusted kernel fixes black. -/
theorem hls_to_rgb_uint8_black (kern : Img ℝ → Img ℝ)
    (hk : ∀ im : Img ℝ, (∀ c y x, im c y x = 0) → ∀ c y x, kern im c y x = 0)
    (img : Img ℝ) (himg : ∀ c y x, img c y x = 0) (c y x : ℕ) :
    _hls_to_rgb_uint8 kern img c y x = 0 := by
  have hkz : ∀ c y x,
      kern (fun c y x =>
        if c = 0 then castTrunc .float32 (img c y x) * (2 * Real.pi / 180)
        else castTrunc .float32 (img c y x) / 255) c y x = 0 :=
    hk _ (fun c y x => by
      simp only [castTrunc, himg c y x]
      split <;> ring)
  have hcore : ∀ c y x, _hls_to_rgb_uint8_core kern img c y x = 0 := by
    intro c y x
    simp only [_hls_to_rgb_uint8_core]
    rw [hkz c y x, zero_mul, round_opencv_zero]
    norm_num
  simp only [_hls_to_rgb_uint8, clipped, clip, castTrunc, MAX_VALUES_BY_DTYPE,
    Option.getD]
  rw [hcore c y x, clamp255_zero, truncK_zero]
  norm_num

/-- C9: on an all-black uint8 image with `brightness_coeff = 1.0`, `add_snow`
returns the image unchanged for every `snow_point` (given that the trusted
kernels fix black, as any RGB↔HLS pair does). -/
theorem add_snow_black_fixed_point (k1 k2 : Img ℝ → Img ℝ)
    (hk1 : ∀ im : Img ℝ, (∀ c y x, im c y x = 0) → ∀ c y x, k1 im c y x = 0)
    (hk2 : ∀ im : Img ℝ, (∀ c y x, im c y x = 0) → ∀ c y x, k2 im c y x = 0)
    (img : Img ℝ) (himg : ∀ c y x, img c y x = 0) (snow_point : ℝ)
    (c y x : ℕ) :
    Except.map (fun r => r c y x) (add_snow k1 k2 img .uint8 snow_point 1) =
      Except.ok (img c y x) := by
  have hHLS := rbg_to_hls_uint8_black k1 hk1 img himg
  simp [add_snow, rgb_to_hls, hls_to_rgb, bind, Except.bind, Except.map]
  refine Eq.trans (hls_to_rgb_uint8_black k2 hk2 _ ?_ c y x) (himg c y x).symm
  intro c' y' x'
  have hmin : min (255 : ℝ) (0 : ℝ) = 0 := min_eq_right (by norm_num)
  simp [clip, castTrunc, hHLS, max_self, hmin, truncK_zero]

/-- Witness for C9: constant-zero kernels, the all-black image, snow_point
1/2, pixel (0,0,0). -/
theorem add_snow_black_fixed_point_witness :
    Except.map (fun r => r 0 0 0)
      (add_snow (fun _ _ _ _ => 0) (fun _ _ _ _ => 0) (fun _ _ _ => 0)
        .uint8 (1/2) 1) =
      Except.ok ((fun _ _ _ => (0 : ℝ)) 0 0 0) :=
  add_snow_black_fixed_point (fun _ _ _ _ => 0) (fun _ _ _ _ => 0)
    (fun _ _ _ _ _ => rfl) (fun _ _ _ _ _ => rfl)
    (fun _ _ _ => 0) (fun _ _ _ => rfl) (1/2) 0 0 0

end Albu
